import Mathlib

/-!
Verification of the NES picture-processing-unit register/address core and the
cartridge (iNES) loader.

The definitions below are a shallow embedding of `src/cartridge.rs` and
`src/ppu.rs`:
  * `u8`/`u16` machine integers become `Nat` with explicit `% 256` / 14-bit
    masking exactly where the source wraps or casts;
  * Rust `match`/`if` control flow is kept structurally;
  * fallible paths (slice indexing, array indexing, `panic!`-style aborts)
    become an explicit outcome (`ParseOutcome.panics`, or a `none` result for
    the PPU data-port read).
-/

set_option maxRecDepth 10000

/-- `Mirroring` from src/cartridge.rs. -/
inductive Mirroring where
  | Vertical
  | Horizontal
  | FourScreen
deriving DecidableEq, Repr

/-- `NesRom` from src/cartridge.rs (bytes modelled as `Nat`s below 256). -/
structure NesRom where
  prg_rom : List Nat
  chr_rom : List Nat
  mapper : Nat
  mirror : Mirroring
deriving DecidableEq, Repr

/-- Outcome of `NesRom::new`: a parsed ROM, a typed `Err(String)` result, or a
Rust panic (out-of-range slice or index).  The source returns
`Result<NesRom, String>`; the `panics` constructor records executions in which
the Rust code would abort before producing any `Result` at all. -/
inductive ParseOutcome where
  | ok (rom : NesRom)
  | err (msg : String)
  | panics (msg : String)
deriving DecidableEq, Repr

/-- `NES_TAG` from src/cartridge.rs. -/
def nesTag : List Nat := [0x4E, 0x45, 0x53, 0x1A]

/-- `PRG_ROM_PAGE_SIZE` from src/cartridge.rs. -/
def prgRomPageSize : Nat := 16384

/-- `CHR_ROM_PAGE_SIZE` from src/cartridge.rs. -/
def chrRomPageSize : Nat := 8192

/-- `NesRom::new` from src/cartridge.rs, line by line.

* `&raw[0..4]` panics when the input has fewer than 4 bytes, before the tag
  comparison happens.
* `raw[7]` / `raw[6]` (the `mapper` line) panic when the input has fewer than
  8 bytes; this access happens before the version check.
* `raw[a..b].to_vec()` panics when `b` exceeds the input length.
Indexing uses `getD _ 0`; every index is guarded by the same length check the
Rust runtime performs, so the default is never what is returned on the `ok`
path. -/
def nesRomNew (raw : List Nat) : ParseOutcome :=
  if raw.length < 4 then ParseOutcome.panics "slice index out of range"
  else if raw.take 4 ≠ nesTag then
    ParseOutcome.err "File is not in iNES file format"
  else if raw.length < 8 then ParseOutcome.panics "index out of range"
  else
    -- let mapper = (raw[7] & 0b1111_0000) | (raw[6] >> 4);
    let mapper := (raw.getD 7 0 &&& 0b11110000) ||| (raw.getD 6 0 >>> 4)
    -- let ines_ver = (raw[7] >> 2) & 0b11;
    let ines_ver := (raw.getD 7 0 >>> 2) &&& 0b11
    if ines_ver ≠ 0 then ParseOutcome.err "NES2.0 format is not supported"
    else
      let four_screen := raw.getD 6 0 &&& 0b1000 ≠ 0
      let vertical_mirroring := raw.getD 6 0 &&& 0b1 ≠ 0
      let screen_mirroring :=
        if four_screen then Mirroring.FourScreen
        else if vertical_mirroring then Mirroring.Vertical
        else Mirroring.Horizontal
      let prg_rom_size := raw.getD 4 0 * prgRomPageSize
      let chr_rom_size := raw.getD 5 0 * chrRomPageSize
      let skip_trainer := raw.getD 6 0 &&& 0b100 ≠ 0
      let prg_rom_start := 16 + (if skip_trainer then 512 else 0)
      let chr_rom_start := prg_rom_start + prg_rom_size
      if raw.length < prg_rom_start + prg_rom_size then
        ParseOutcome.panics "slice index out of range"
      else if raw.length < chr_rom_start + chr_rom_size then
        ParseOutcome.panics "slice index out of range"
      else
        ParseOutcome.ok
          { prg_rom := (raw.drop prg_rom_start).take prg_rom_size
            chr_rom := (raw.drop chr_rom_start).take chr_rom_size
            mapper := mapper
            mirror := screen_mirroring }

/-- `AddrRegister` from src/ppu.rs: `value.0` is the high byte (`hi`),
`value.1` the low byte (`lo`), `high_ptr` the write latch. -/
structure AddrRegister where
  hi : Nat
  lo : Nat
  high_ptr : Bool
deriving DecidableEq, Repr

namespace AddrRegister

/-- `AddrRegister::new`. -/
def new : AddrRegister := { hi := 0, lo := 0, high_ptr := true }

/-- `AddrRegister::get`: `((value.0 as u16) << 8) | (value.1 as u16)`. -/
def get (r : AddrRegister) : Nat := (r.hi <<< 8) ||| r.lo

/-- `AddrRegister::set`: `value.0 = (data >> 8) as u8; value.1 = (data & 0xff) as u8`.
The `as u8` truncation is `% 256`; `data & 0xff` is already below 256. -/
def set (r : AddrRegister) (data : Nat) : AddrRegister :=
  { r with hi := (data >>> 8) % 256, lo := data &&& 0xff }

/-- `AddrRegister::update` (write one byte through the latch, then mirror the
combined value down to 14 bits when it exceeds 0x3fff, then flip the latch). -/
def update (r : AddrRegister) (data : Nat) : AddrRegister :=
  let r1 := if r.high_ptr then { r with hi := data } else { r with lo := data }
  let r2 := if r1.get > 0x3fff then r1.set (r1.get &&& 0b11111111111111) else r1
  { r2 with high_ptr := !r2.high_ptr }

/-- `AddrRegister::increment`: wrapping add on the low byte, carry into the
high byte exactly when the old low byte exceeds the new one, then the same
14-bit mirroring as `update`.  `u8::wrapping_add` is `% 256`. -/
def increment (r : AddrRegister) (inc : Nat) : AddrRegister :=
  let lo := r.lo
  let r1 := { r with lo := (r.lo + inc) % 256 }
  let r2 := if lo > r1.lo then { r1 with hi := (r1.hi + 1) % 256 } else r1
  if r2.get > 0x3fff then r2.set (r2.get &&& 0b11111111111111) else r2

/-- `AddrRegister::reset_latch`. -/
def reset_latch (r : AddrRegister) : AddrRegister := { r with high_ptr := true }

end AddrRegister

-- Arithmetic readings of the bitwise operations the source uses.

/-- `(h << 8) | l` is `h * 256 + l` whenever the low byte is a byte. -/
theorem shiftLeft_or_eq_add (h l : Nat) (hl : l < 256) :
    (h <<< 8) ||| l = h * 256 + l := by
  have h1 : h <<< 8 = 2 ^ 8 * h := by
    rw [Nat.shiftLeft_eq]; ring
  have h2 : 2 ^ 8 * h + l = 2 ^ 8 * h ||| l :=
    Nat.mul_add_lt_is_or (by norm_num [hl]) h
  rw [h1, ← h2]; ring

/-- Masking with `0b11111111111111` is reduction mod 2^14. -/
theorem and_14bits (x : Nat) : x &&& 0b11111111111111 = x % 16384 := by
  have := Nat.and_pow_two_sub_one_eq_mod x 14
  norm_num at this
  exact this

/-- Masking with `0xff` is reduction mod 256. -/
theorem and_8bits (x : Nat) : x &&& 0xff = x % 256 := by
  have := Nat.and_pow_two_sub_one_eq_mod x 8
  norm_num at this
  exact this

/-- `x >>> 8` is division by 256. -/
theorem shiftRight_8 (x : Nat) : x >>> 8 = x / 256 := by
  rw [Nat.shiftRight_eq_div_pow]

namespace AddrRegister

/-- After `set x` with `x < 65536`, `get` returns exactly `x`. -/
theorem get_set (r : AddrRegister) (x : Nat) (hx : x < 65536) :
    (r.set x).get = x := by
  unfold get set
  simp only
  rw [and_8bits, shiftRight_8]
  rw [shiftLeft_or_eq_add _ _ (Nat.mod_lt _ (by norm_num))]
  omega

/-- `get` ignores the latch flag. -/
theorem get_mk_high_ptr (x : AddrRegister) (b : Bool) :
    ({ x with high_ptr := b } : AddrRegister).get = x.get := rfl

/-- The conditional 14-bit mirroring step always leaves `get` at or
below 0x3fff. -/
theorem get_mask_le (r : AddrRegister) :
    (if r.get > 0x3fff then r.set (r.get &&& 0b11111111111111) else r).get
      ≤ 0x3fff := by
  split
  · rw [and_14bits]
    have hm : r.get % 16384 < 16384 := Nat.mod_lt _ (by norm_num)
    rw [get_set _ _ (by omega)]
    omega
  · omega

/-- Every `update` leaves the externally visible value at or below 0x3fff. -/
theorem get_update_le (r : AddrRegister) (data : Nat) :
    (r.update data).get ≤ 0x3fff := by
  unfold update
  simp only
  rw [get_mk_high_ptr]
  exact get_mask_le _

/-- Every `increment` leaves the externally visible value at or below 0x3fff. -/
theorem get_increment_le (r : AddrRegister) (inc : Nat) :
    (r.increment inc).get ≤ 0x3fff := by
  unfold increment
  simp only
  exact get_mask_le _

end AddrRegister

/-- `ControlRegister` from src/ppu.rs (a `bitflags` u8 wrapper). -/
structure ControlRegister where
  bits : Nat
deriving DecidableEq, Repr

namespace ControlRegister

/-- `ControlRegister::VRAM_ADD_INCREMENT` (bit 2). -/
def vramAddIncrementFlag : Nat := 0b00000100

/-- `bitflags` `contains` for a single-bit flag: `bits & flag == flag`. -/
def contains (c : ControlRegister) (flag : Nat) : Bool :=
  c.bits &&& flag == flag

/-- `ControlRegister::new()`: `from_bits_truncate(0)` is all bits clear. -/
def new : ControlRegister := { bits := 0 }

/-- `ControlRegister::vram_addr_increment`. -/
def vram_addr_increment (c : ControlRegister) : Nat :=
  if !(c.contains vramAddIncrementFlag) then 1 else 32

/-- `ControlRegister::update`: replace the whole bitfield. -/
def update (c : ControlRegister) (data : Nat) : ControlRegister :=
  { c with bits := data }

/-- The configured step is always 1 or 32. -/
theorem vram_addr_increment_cases (c : ControlRegister) :
    c.vram_addr_increment = 1 ∨ c.vram_addr_increment = 32 := by
  unfold vram_addr_increment
  split
  · exact Or.inl rfl
  · exact Or.inr rfl

end ControlRegister

/-- `PPU` from src/ppu.rs, with byte arrays as lists of `Nat`s. -/
structure PPU where
  internal_data_buf : Nat
  chr_rom : List Nat
  mirroring : Mirroring
  palette_table : List Nat
  vram : List Nat
  oam_data : List Nat
  palette_ram : List Nat
  sprite_list_ram : List Nat
  secondary_sprite_list_ram : List Nat
  ctrl : ControlRegister
  mask : Nat
  status : Nat
  oam_addr : Nat
  scroll : Nat
  addr : AddrRegister
  data : Nat
  oam_dma : Nat
deriving DecidableEq, Repr

namespace PPU

/-- `PPU::new` from src/ppu.rs. -/
def new (chr_rom : List Nat) (mirroring : Mirroring) : PPU :=
  { internal_data_buf := 0
    palette_ram := List.replicate 32 0
    sprite_list_ram := List.replicate 256 0
    secondary_sprite_list_ram := List.replicate 32 0
    ctrl := ControlRegister.new
    mask := 0
    status := 0
    oam_addr := 0
    oam_data := List.replicate 256 0
    scroll := 0
    addr := AddrRegister.new
    data := 0
    oam_dma := 0
    chr_rom := chr_rom
    palette_table := List.replicate 32 0
    vram := List.replicate 2048 0
    mirroring := mirroring }

/-- `PPU::write_to_ppu_addr`. -/
def write_to_ppu_addr (p : PPU) (data : Nat) : PPU :=
  { p with addr := p.addr.update data }

/-- `PPU::write_to_ctrl`. -/
def write_to_ctrl (p : PPU) (data : Nat) : PPU :=
  { p with ctrl := p.ctrl.update data }

/-- `PPU::increment_vram_addr`. -/
def increment_vram_addr (p : PPU) : PPU :=
  { p with addr := p.addr.increment p.ctrl.vram_addr_increment }

/-- `PPU::mirror_vram_addr` from src/ppu.rs.  `u16` subtraction never
underflows here in the source's call domain (the masked address is at least
0x2000 whenever the input is in the nametable region), matching `Nat`
truncated subtraction. -/
def mirror_vram_addr (m : Mirroring) (addr : Nat) : Nat :=
  let mirrored_vram := addr &&& 0b10111111111111
  let vram_index := mirrored_vram - 0x2000
  let name_table := vram_index / 0x400
  match m, name_table with
  | Mirroring.Vertical, 2 => vram_index - 0x800
  | Mirroring.Vertical, 3 => vram_index - 0x800
  | Mirroring.Horizontal, 2 => vram_index - 0x400
  | Mirroring.Horizontal, 1 => vram_index - 0x400
  | Mirroring.Horizontal, 3 => vram_index - 0x800
  | _, _ => vram_index

/-- `PPU::read_data` from src/ppu.rs.  The returned pair is the read byte
(`none` where the source panics: the explicit `panic!` arms for
0x3000–0x3eff and for addresses past 0x3eff, and Rust's bounds-check abort
on `chr_rom`/`vram` indexing) together with the post-call state.  The
address-port increment happens first, exactly as in the source. -/
def read_data (p : PPU) : Option Nat × PPU :=
  let addr := p.addr.get
  let p1 := p.increment_vram_addr
  if addr ≤ 0x1fff then
    if addr < p1.chr_rom.length then
      (some p1.internal_data_buf,
        { p1 with internal_data_buf := p1.chr_rom.getD addr 0 })
    else (none, p1)
  else if addr ≤ 0x2fff then
    if mirror_vram_addr p1.mirroring addr < p1.vram.length then
      (some p1.internal_data_buf,
        { p1 with internal_data_buf :=
            p1.vram.getD (mirror_vram_addr p1.mirroring addr) 0 })
    else (none, p1)
  else (none, p1)

end PPU

/-- One operation on the Address Port, for stating sequence invariants. -/
inductive PortOp where
  | write (b : Nat)
  | inc (s : Nat)
  | resetLatch
deriving DecidableEq, Repr

/-- Apply one Address-Port operation. -/
def PortOp.apply (op : PortOp) (r : AddrRegister) : AddrRegister :=
  match op with
  | PortOp.write b => r.update b
  | PortOp.inc s => r.increment s
  | PortOp.resetLatch => r.reset_latch

/-- Run a sequence of Address-Port operations from the initial state. -/
def runOps (ops : List PortOp) : AddrRegister :=
  ops.foldl (fun r op => op.apply r) AddrRegister.new

/-- The increment step as worded by the specification: add the step to the
low byte with 8-bit wraparound, carry 1 into the high byte (with wraparound)
exactly when the new low byte is smaller than the old one, then mask the
combined value to 14 bits. -/
def incrementSpec (r : AddrRegister) (step : Nat) : AddrRegister :=
  let newLo := (r.lo + step) % 256
  let newHi := if newLo < r.lo then (r.hi + 1) % 256 else r.hi
  let v := (newHi * 256 + newLo) &&& 0b11111111111111
  { r with hi := v / 256, lo := v % 256 }

namespace PPU

/-- The byte stored at the location the address port currently targets
(`none` when the location does not exist: address outside the pattern and
nametable ranges, or index past the corresponding store). -/
def addressedByte (p : PPU) : Option Nat :=
  if p.addr.get ≤ 0x1fff then
    if p.addr.get < p.chr_rom.length then some (p.chr_rom.getD p.addr.get 0)
    else none
  else if p.addr.get ≤ 0x2fff then
    if mirror_vram_addr p.mirroring p.addr.get < p.vram.length then
      some (p.vram.getD (mirror_vram_addr p.mirroring p.addr.get) 0)
    else none
  else none

/-- Every PPU field except the address port and the internal read buffer,
bundled for frame conditions. -/
def frame (p : PPU) :=
  (p.chr_rom, p.mirroring, p.palette_table, p.vram, p.oam_data,
   p.palette_ram, p.sprite_list_ram, p.secondary_sprite_list_ram,
   p.ctrl, p.mask, p.status, p.oam_addr, p.scroll, p.data, p.oam_dma)

/-- A freshly constructed PPU after the two address-port writes that set up
the target address. -/
def afterAddrWrites (chr : List Nat) (m : Mirroring) (b1 b2 : Nat) : PPU :=
  (((PPU.new chr m).write_to_ppu_addr b1).write_to_ppu_addr b2)

end PPU

-- Concrete 16-byte ROM images used as witnesses.

/-- Valid iNES header, mapper nibbles 1 (low, byte 6) and 2 (high, byte 7),
no trainer, zero-page PRG and CHR regions. -/
def rom16 : List Nat :=
  [0x4E, 0x45, 0x53, 0x1A, 0, 0, 0x10, 0x20, 0, 0, 0, 0, 0, 0, 0, 0]

/-- Same image but byte 7 = 0x01: bits 0–1 of byte 7 are nonzero while the
field the code actually checks (bits 2–3) is zero. -/
def rom16b : List Nat :=
  [0x4E, 0x45, 0x53, 0x1A, 0, 0, 0x10, 0x01, 0, 0, 0, 0, 0, 0, 0, 0]

/-- Same image but byte 7 = 0x04: bits 2–3 of byte 7 are nonzero. -/
def rom16c : List Nat :=
  [0x4E, 0x45, 0x53, 0x1A, 0, 0, 0, 0x04, 0, 0, 0, 0, 0, 0, 0, 0]

/-- Valid header that declares one 8192-byte CHR page but carries no payload
bytes at all. -/
def romTruncated : List Nat :=
  [0x4E, 0x45, 0x53, 0x1A, 0, 1, 0, 0, 0, 0, 0, 0, 0, 0, 0, 0]

/-- Closed form of the 14-bit nametable mask on the region 0x2000–0x3eff:
bit 13 of the address is set there, so the mask keeps bit 13 and the low
12 bits and clears bit 12. -/
theorem nametable_mask (a : Nat) (h1 : 0x2000 ≤ a) (h2 : a ≤ 0x3eff) :
    a &&& 0b10111111111111 = 0x2000 + a % 0x1000 := by
  have hsplit : (0b10111111111111 : Nat) = 0x2000 ||| 0xfff := by decide
  rw [hsplit, Nat.and_or_distrib_left]
  have h8192 : (2 : Nat) ^ 13 = 8192 := by norm_num
  have h13 : a &&& 0x2000 = 0x2000 := by
    rw [show (0x2000 : Nat) = 2 ^ 13 by norm_num, Nat.and_two_pow]
    have hbit : a.testBit 13 = true := by
      rw [Nat.testBit_to_div_mod, h8192]
      have hdiv : a / 8192 = 1 := by omega
      simp [hdiv]
    rw [hbit, h8192]
    norm_num
  have h12 : a &&& 0xfff = a % 0x1000 := by
    have := Nat.and_pow_two_sub_one_eq_mod a 12
    norm_num at this
    exact this
  rw [h13, h12]
  rw [show (0x2000 : Nat) = 2 ^ 13 * 1 by norm_num,
    ← Nat.mul_add_lt_is_or (show a % 0x1000 < 2 ^ 13 by omega) 1]

/-- C1: for every sequence of Address-Port operations (writes, increments,
latch resets), after every write and after every increment the externally
visible combined value `get` is at most 0x3fff; from the initial state,
writing 0xff then 0xff yields exactly 0x3fff. -/
theorem addr_port_value_always_masked :
    (∀ (ops : List PortOp) (b : Nat),
      (runOps (ops ++ [PortOp.write b])).get ≤ 0x3fff)
    ∧ (∀ (ops : List PortOp) (s : Nat),
      (runOps (ops ++ [PortOp.inc s])).get ≤ 0x3fff)
    ∧ (runOps [PortOp.write 0xff, PortOp.write 0xff]).get = 0x3fff := by
  refine ⟨?_, ?_, by decide⟩
  · intro ops b
    unfold runOps
    rw [List.foldl_append]
    exact AddrRegister.get_update_le _ _
  · intro ops s
    unfold runOps
    rw [List.foldl_append]
    exact AddrRegister.get_increment_le _ _

/-- C2: the nametable fold — in Vertical mode raw 0x2800 (logical table 2)
maps to the same physical index as raw 0x2000 (logical table 0); in
Horizontal mode raw 0x2400 (table 1) lands in table 0's bank (index at most
0x3ff) and raw 0x2c00 (table 3) lands in the same 1KB bank as raw 0x2800
(table 2). -/
theorem mirror_vram_addr_fold_examples :
    PPU.mirror_vram_addr Mirroring.Vertical 0x2800
      = PPU.mirror_vram_addr Mirroring.Vertical 0x2000
    ∧ PPU.mirror_vram_addr Mirroring.Horizontal 0x2400 ≤ 0x3ff
    ∧ PPU.mirror_vram_addr Mirroring.Horizontal 0x2c00 / 0x400
      = PPU.mirror_vram_addr Mirroring.Horizontal 0x2800 / 0x400 := by
  decide

/-- C4: `increment` adds the step to the low byte with 8-bit wraparound,
carries 1 into the high byte (with wraparound) exactly when the new low byte
is smaller than the old one, then masks the combined value to 14 bits
(`incrementSpec` is that wording, verbatim); concretely, 0x20ff + 1 gives
0x2100 and 0x3fff + 32 stays at or below 0x3fff. -/
theorem increment_refines_spec :
    (∀ (r : AddrRegister) (step : Nat), (step = 1 ∨ step = 32) →
      r.increment step = incrementSpec r step)
    ∧ (∀ b : Bool, ((AddrRegister.mk 0x20 0xff b).increment 1).get = 0x2100)
    ∧ (∀ b : Bool,
        ((AddrRegister.mk 0x3f 0xff b).increment 32).get ≤ 0x3fff) := by
  refine ⟨?_, by decide, by decide⟩
  intro r step hs
  obtain ⟨hi, lo, hp⟩ := r
  have hlo : (lo + step) % 256 < 256 := Nat.mod_lt _ (by norm_num)
  simp only [AddrRegister.increment, incrementSpec, AddrRegister.set,
    AddrRegister.get, and_14bits, and_8bits, shiftRight_8]
  split <;> split <;>
    (simp only [shiftLeft_or_eq_add _ _ hlo] at *;
      simp only [AddrRegister.mk.injEq, and_true, true_and])
  all_goals omega

/-- Witness for C4 at the concrete register 0x20ff with step 1. -/
theorem increment_refines_spec_witness :
    ((1 : Nat) = 1 ∨ (1 : Nat) = 32)
    ∧ (AddrRegister.mk 0x20 0xff true).increment 1
        = incrementSpec (AddrRegister.mk 0x20 0xff true) 1 :=
  ⟨Or.inl rfl, increment_refines_spec.1 (AddrRegister.mk 0x20 0xff true) 1
    (Or.inl rfl)⟩

/-- C5: from the initial state the first write sets the high byte and the
second the low byte (0x21 then 0x08 gives 0x2108); the awaiting-high
flip-flop alternates on every write, so after two writes from the initial
state the third write targets the high byte again; `reset_latch` forces
awaiting-high unconditionally without touching the stored bytes. -/
theorem addr_latch_behavior :
    ((AddrRegister.new.update 0x21).update 0x08).get = 0x2108
    ∧ (∀ (r : AddrRegister) (d : Nat), (r.update d).high_ptr = !r.high_ptr)
    ∧ (∀ (d1 d2 : Nat),
        ((AddrRegister.new.update d1).update d2).high_ptr = true)
    ∧ (∀ r : AddrRegister, (r.reset_latch).high_ptr = true
        ∧ (r.reset_latch).hi = r.hi ∧ (r.reset_latch).lo = r.lo) := by
  refine ⟨by decide, ?_, ?_, ?_⟩
  · intro r d
    simp only [AddrRegister.update, AddrRegister.set]
    split <;> split <;> rfl
  · intro d1 d2
    simp only [AddrRegister.update, AddrRegister.set]
    split <;> split <;> split <;> split <;> rfl
  · intro r
    exact ⟨rfl, rfl, rfl⟩

/-- C6 (counterexample): in FourScreen mode the raw nametable address 0x2800
is mapped to physical index 2048, which is not below the 2048-byte store, so
the claimed bound fails for FourScreen. -/
theorem mirror_vram_addr_four_screen_out_of_bounds :
    (0x2000 : Nat) ≤ 0x2800 ∧ (0x2800 : Nat) ≤ 0x3eff
    ∧ PPU.mirror_vram_addr Mirroring.FourScreen 0x2800 = 2048
    ∧ ¬ PPU.mirror_vram_addr Mirroring.FourScreen 0x2800 < 2048 := by
  decide

/-- C6 (amended): for the Vertical and Horizontal mirroring modes, every raw
address in the nametable region 0x2000–0x3eff is mapped to an index strictly
below the 2048-byte physical store.  (FourScreen violates the bound, see the
counterexample: logical tables 2 and 3 pass through unadjusted.) -/
theorem mirror_vram_addr_lt_without_four_screen (m : Mirroring)
    (hm : m = Mirroring.Vertical ∨ m = Mirroring.Horizontal)
    (a : Nat) (h1 : 0x2000 ≤ a) (h2 : a ≤ 0x3eff) :
    PPU.mirror_vram_addr m a < 2048 := by
  have hl : a % 0x1000 < 4096 := Nat.mod_lt _ (by norm_num)
  rcases hm with rfl | rfl <;>
  · unfold PPU.mirror_vram_addr
    simp only [nametable_mask a h1 h2, Nat.add_sub_cancel_left]
    split <;> first
    | omega
    | (simp_all; omega)

/-- Witness for C6 (amended) at Vertical mirroring and raw address 0x2800. -/
theorem mirror_vram_addr_lt_without_four_screen_witness :
    (Mirroring.Vertical = Mirroring.Vertical
      ∨ Mirroring.Vertical = Mirroring.Horizontal)
    ∧ (0x2000 : Nat) ≤ 0x2800 ∧ (0x2800 : Nat) ≤ 0x3eff
    ∧ PPU.mirror_vram_addr Mirroring.Vertical 0x2800 < 2048 :=
  ⟨Or.inl rfl, by norm_num, by norm_num,
    mirror_vram_addr_lt_without_four_screen Mirroring.Vertical (Or.inl rfl)
      0x2800 (by norm_num) (by norm_num)⟩

namespace PPU

/-- Helper: `read_data` always moves the address port forward by the control
register's configured step, whatever region the address targets. -/
theorem read_data_addr (p : PPU) :
    ((p.read_data).2).addr = p.addr.increment p.ctrl.vram_addr_increment := by
  simp only [read_data, increment_vram_addr]
  repeat' split
  all_goals rfl

/-- Helper: on the pattern and nametable ranges (with the addressed location
in bounds), `read_data` surfaces the previous buffer contents. -/
theorem read_data_fst (p : PPU)
    (h1 : p.addr.get ≤ 0x2fff) (h2 : p.addressedByte ≠ none) :
    (p.read_data).1 = some p.internal_data_buf := by
  simp only [read_data, increment_vram_addr]
  simp only [addressedByte] at h2
  repeat' split
  all_goals first | rfl | (exfalso; simp_all)

/-- Helper: on the pattern and nametable ranges (with the addressed location
in bounds), `read_data` refills the buffer with the addressed byte. -/
theorem read_data_buf (p : PPU)
    (h1 : p.addr.get ≤ 0x2fff) (h2 : p.addressedByte ≠ none) :
    some ((p.read_data).2.internal_data_buf) = p.addressedByte := by
  simp only [read_data, increment_vram_addr]
  simp only [addressedByte] at h2 ⊢
  repeat' split
  all_goals first | rfl | (exfalso; simp_all)

/-- C3: on a freshly constructed PPU whose address port was pointed (by two
latch writes) at the pattern or nametable range, the first `read_data` call
returns 0 (the buffer's initial value) rather than the addressed byte, and
the second call returns exactly the byte the first call fetched; moreover
every `read_data` call, on every PPU state whatsoever, advances the address
port by the control register's configured step, which is always 1 or 32. -/
theorem read_data_one_access_latency (chr : List Nat) (m : Mirroring)
    (b1 b2 : Nat) (q : PPU)
    (h1 : (afterAddrWrites chr m b1 b2).addr.get ≤ 0x2fff)
    (h2 : (afterAddrWrites chr m b1 b2).addressedByte ≠ none)
    (h3 : ((afterAddrWrites chr m b1 b2).read_data).2.addr.get ≤ 0x2fff)
    (h4 : ((afterAddrWrites chr m b1 b2).read_data).2.addressedByte ≠ none) :
    ((afterAddrWrites chr m b1 b2).read_data).1 = some 0
    ∧ (((afterAddrWrites chr m b1 b2).read_data).2.read_data).1
        = some (((afterAddrWrites chr m b1 b2).read_data).2.internal_data_buf)
    ∧ some (((afterAddrWrites chr m b1 b2).read_data).2.internal_data_buf)
        = (afterAddrWrites chr m b1 b2).addressedByte
    ∧ ((q.read_data).2).addr = q.addr.increment q.ctrl.vram_addr_increment
    ∧ (q.ctrl.vram_addr_increment = 1 ∨ q.ctrl.vram_addr_increment = 32) := by
  refine ⟨?_, read_data_fst _ h3 h4, read_data_buf _ h1 h2,
    read_data_addr _, q.ctrl.vram_addr_increment_cases⟩
  have hbuf : (afterAddrWrites chr m b1 b2).internal_data_buf = 0 := rfl
  rw [read_data_fst _ h1 h2, hbuf]

/-- Witness for C3: CHR ROM `[7, 9]`, vertical mirroring, address port
written to 0x0000; the first read returns 0 and fetches 7, the second read
returns 7. -/
theorem read_data_one_access_latency_witness :
    (afterAddrWrites [7, 9] Mirroring.Vertical 0 0).addr.get ≤ 0x2fff
    ∧ (afterAddrWrites [7, 9] Mirroring.Vertical 0 0).addressedByte ≠ none
    ∧ ((afterAddrWrites [7, 9] Mirroring.Vertical 0 0).read_data).2.addr.get
        ≤ 0x2fff
    ∧ ((afterAddrWrites [7, 9] Mirroring.Vertical 0 0).read_data).2.addressedByte
        ≠ none
    ∧ (((afterAddrWrites [7, 9] Mirroring.Vertical 0 0).read_data).1 = some 0
      ∧ ((((afterAddrWrites [7, 9] Mirroring.Vertical 0 0).read_data).2).read_data).1
          = some (((afterAddrWrites [7, 9] Mirroring.Vertical 0 0).read_data).2.internal_data_buf)
      ∧ some (((afterAddrWrites [7, 9] Mirroring.Vertical 0 0).read_data).2.internal_data_buf)
          = (afterAddrWrites [7, 9] Mirroring.Vertical 0 0).addressedByte
      ∧ (((PPU.new [] Mirroring.Vertical).read_data).2).addr
          = (PPU.new [] Mirroring.Vertical).addr.increment
              (PPU.new [] Mirroring.Vertical).ctrl.vram_addr_increment
      ∧ ((PPU.new [] Mirroring.Vertical).ctrl.vram_addr_increment = 1
          ∨ (PPU.new [] Mirroring.Vertical).ctrl.vram_addr_increment = 32)) :=
  ⟨by decide, by decide, by decide, by decide,
    read_data_one_access_latency [7, 9] Mirroring.Vertical 0 0
      (PPU.new [] Mirroring.Vertical) (by decide) (by decide) (by decide)
      (by decide)⟩

/-- C10: whenever the address port targets 0x0000–0x2fff, `read_data`
changes nothing except the address port and the internal read buffer: the
character memory, mirroring mode, palette stores, nametable store, both
object-attribute stores, the control register and all plain registers are
untouched. -/
theorem read_data_only_mutates_addr_and_buffer (p : PPU)
    (h : p.addr.get ≤ 0x2fff) :
    ((p.read_data).2).frame = p.frame := by
  simp only [read_data, increment_vram_addr]
  repeat' split
  all_goals rfl

/-- Witness for C10 on a freshly constructed PPU. -/
theorem read_data_only_mutates_addr_and_buffer_witness :
    (PPU.new [] Mirroring.Vertical).addr.get ≤ 0x2fff
    ∧ ((PPU.new [] Mirroring.Vertical).read_data).2.frame
        = (PPU.new [] Mirroring.Vertical).frame :=
  ⟨by decide, read_data_only_mutates_addr_and_buffer _ (by decide)⟩

end PPU

/-- C7: contrary to the specified typed-error contract, the loader panics
(out-of-range slice) rather than returning a typed error both on an input
shorter than the header (the empty input dies at `&raw[0..4]`) and on a
valid header whose declared region sizes exceed the remaining bytes (the
CHR slice dies). -/
theorem nes_rom_new_panics_not_typed_error :
    nesRomNew [] = ParseOutcome.panics "slice index out of range"
    ∧ nesRomNew romTruncated = ParseOutcome.panics "slice index out of range" :=
  ⟨rfl, rfl⟩

/-- The record the loader produces for `rom16`. -/
def rom16Rec : NesRom :=
  { prg_rom := [], chr_rom := [], mapper := 0x21,
    mirror := Mirroring.Horizontal }

/-- The record the loader produces for `rom16b`. -/
def rom16bRec : NesRom :=
  { prg_rom := [], chr_rom := [], mapper := 0x01,
    mirror := Mirroring.Horizontal }

/-- C8: every accepted image has
`mapper_id = (byte7 & 0xf0) | (byte6 >> 4)`; with byte 6 = 0x10 and
byte 7 = 0x20 the loader accepts and derives mapper 0x21. -/
theorem mapper_id_derivation :
    (∀ (raw : List Nat) (rom : NesRom), nesRomNew raw = ParseOutcome.ok rom →
      rom.mapper = (raw.getD 7 0 &&& 0xf0) ||| (raw.getD 6 0 >>> 4))
    ∧ nesRomNew rom16 = ParseOutcome.ok rom16Rec
    ∧ rom16Rec.mapper = 0x21 := by
  refine ⟨?_, by decide, by decide⟩
  intro raw rom h
  simp only [nesRomNew] at h
  repeat' split at h
  all_goals first | (injection h with h; subst h; rfl) | simp_all

/-- Witness for C8 at the concrete image `rom16`. -/
theorem mapper_id_derivation_witness :
    nesRomNew rom16 = ParseOutcome.ok rom16Rec
    ∧ rom16Rec.mapper
      = (rom16.getD 7 0 &&& 0xf0) ||| (rom16.getD 6 0 >>> 4) :=
  ⟨by decide, mapper_id_derivation.1 rom16 rom16Rec (by decide)⟩

/-- C9 (counterexample): with header byte 7 = 0x01 its bits 0–1 are nonzero,
yet the loader does not fail with the unsupported-format error — it accepts
the image — because the code reads the version field from bits 2–3. -/
theorem format_version_bits01_counterexample :
    (rom16b.getD 7 0 &&& 0b11) ≠ 0
    ∧ nesRomNew rom16b ≠ ParseOutcome.err "NES2.0 format is not supported"
    ∧ nesRomNew rom16b = ParseOutcome.ok rom16bRec := by
  refine ⟨by decide, ?_, by decide⟩
  decide

/-- C9 (amended): once the magic tag matches and the input reaches the
version check (length at least 8), the loader fails with the
unsupported-format error exactly when bits 2–3 of header byte 7 are
nonzero; when that field is 0 parsing continues past the check. -/
theorem unsupported_format_iff_version_bits23 (raw : List Nat)
    (hlen4 : ¬ raw.length < 4) (htag : raw.take 4 = nesTag)
    (hlen8 : ¬ raw.length < 8) :
    nesRomNew raw = ParseOutcome.err "NES2.0 format is not supported"
      ↔ (raw.getD 7 0 >>> 2) &&& 0b11 ≠ 0 := by
  simp only [nesRomNew]
  rw [if_neg hlen4, if_neg (by simp [htag]), if_neg hlen8]
  split
  · next hv => simp_all
  · next hv =>
    constructor
    · intro h
      repeat' split at h
      all_goals simp_all
    · intro h
      exact absurd h (by simp_all)

/-- Witness for C9 (amended) at the concrete image `rom16c` (byte 7 = 0x04,
version field nonzero, loader rejects). -/
theorem unsupported_format_iff_version_bits23_witness :
    ¬ rom16c.length < 4 ∧ rom16c.take 4 = nesTag ∧ ¬ rom16c.length < 8
    ∧ (nesRomNew rom16c = ParseOutcome.err "NES2.0 format is not supported"
        ↔ (rom16c.getD 7 0 >>> 2) &&& 0b11 ≠ 0) :=
  ⟨by decide, by decide, by decide,
    unsupported_format_iff_version_bits23 rom16c (by decide) (by decide)
      (by decide)⟩
